import Mathlib

/-!
Verification of the EduCode translator and execution harness.

The source program translates an educational language ("EduCode") line by
line into Python (`parse_code`), optionally instruments the generated
program with trace prints (`debug_code`), and runs the generated program in
a subprocess under a timeout (`run_code`).  Strings are modelled as lists of
characters (`Line`), Python exceptions as an explicit `PyErr` error type
carried by `Except`, and the subprocess itself as an abstract `RunOutcome`
supplied to the harness model.
-/

set_option maxHeartbeats 1000000

/-- A line of text, as a list of characters (Python string). -/
abbrev Line := List Char

/-- Characters of a string literal. -/
abbrev str (s : String) : Line := s.data

/-- The whitespace characters stripped by Python `str.strip()`. -/
def pyIsSpace (c : Char) : Bool :=
  c = ' ' || c = '\t' || c = '\n' || c = '\r' || c = '\x0b' || c = '\x0c'

/-- Python `lstrip()`. -/
def pyLStrip (l : Line) : Line := l.dropWhile pyIsSpace

/-- Python `rstrip()`. -/
def pyRStrip (l : Line) : Line := (l.reverse.dropWhile pyIsSpace).reverse

/-- Python `strip()`. -/
def pyStrip (l : Line) : Line := pyRStrip (pyLStrip l)

/-- Split on newline characters, keeping empty chunks (helper for
`pySplitlines`). -/
def splitNl : Line → List Line
  | [] => [[]]
  | c :: cs =>
    match splitNl cs with
    | [] => [[]]
    | r :: rs => if c = '\n' then [] :: r :: rs else (c :: r) :: rs

/-- Python `str.splitlines()` (for `\n`-separated text): like splitting on
`'\n'` but the empty string yields `[]` and a trailing newline does not
produce a final empty line. -/
def pySplitlines (l : Line) : List Line :=
  if (splitNl l).getLast? = some [] then (splitNl l).dropLast else splitNl l

/-- Helper for `pySplitWs`: split on whitespace characters keeping empty
chunks. -/
def splitWsGo (acc : Line) : Line → List Line
  | [] => [acc.reverse]
  | c :: cs =>
    if pyIsSpace c then acc.reverse :: splitWsGo [] cs
    else splitWsGo (c :: acc) cs

/-- Python `str.split()` with no argument: split on whitespace runs,
discarding empty tokens. -/
def pySplitWs (l : Line) : List Line :=
  (splitWsGo [] l).filter (· ≠ [])

/-- Fuelled worker for `pySplitOn`. -/
def splitOnGo (sep : Line) : Nat → Line → Line → List Line
  | 0, acc, rest => [acc.reverse ++ rest]
  | _ + 1, acc, [] => [acc.reverse]
  | fuel + 1, acc, c :: cs =>
    if sep.isPrefixOf (c :: cs) then
      acc.reverse :: splitOnGo sep fuel [] ((c :: cs).drop sep.length)
    else
      splitOnGo sep fuel (c :: acc) cs

/-- Python `str.split(sep)` for a non-empty separator: split on each
leftmost non-overlapping occurrence, keeping empty chunks. -/
def pySplitOn (sep l : Line) : List Line := splitOnGo sep (l.length + 1) [] l

/-- Fuelled worker for `pyReplace`. -/
def replaceGo (pat rep : Line) : Nat → Line → Line
  | 0, l => l
  | _ + 1, [] => []
  | fuel + 1, c :: cs =>
    if pat.isPrefixOf (c :: cs) then
      rep ++ replaceGo pat rep fuel ((c :: cs).drop pat.length)
    else
      c :: replaceGo pat rep fuel cs

/-- Python `str.replace(pat, rep)` for a non-empty pattern: replace every
leftmost non-overlapping occurrence. -/
def pyReplace (l pat rep : Line) : Line := replaceGo pat rep l.length l

/-- Python `str.isdigit()` (ASCII digits). -/
def pyIsDigit (s : Line) : Bool := !s.isEmpty && s.all Char.isDigit

/-- Python `str.strip(':')`: remove leading and trailing colons. -/
def stripColons (l : Line) : Line :=
  ((l.dropWhile (· = ':')).reverse.dropWhile (· = ':')).reverse

/-- The Python exceptions the translator can raise. -/
inductive PyErr where
  | indexError
  | valueError
deriving DecidableEq

deriving instance DecidableEq for Except

/-- Python list indexing `l[i]`: `IndexError` when out of range. -/
def pyGet {α : Type} (l : List α) (i : Nat) : Except PyErr α :=
  match l.get? i with
  | some x => .ok x
  | none => .error .indexError

/-- Python `l[-1]`: `IndexError` on the empty list. -/
def pyGetLast {α : Type} (l : List α) : Except PyErr α :=
  match l.getLast? with
  | some x => .ok x
  | none => .error .indexError

/-- Python tuple unpacking `a, b = l`: `ValueError` unless `l` has exactly
two elements. -/
def unpack2 {α : Type} (l : List α) : Except PyErr (α × α) :=
  match l with
  | [a, b] => .ok (a, b)
  | _ => .error .valueError

/-- `indent_level = (len(line) - len(stripped)) // 4` from `parse_code`. -/
def indentLevelOf (line : Line) : Nat := (line.length - (pyStrip line).length) / 4

/-- `stripped = line.strip()` from `parse_code`. -/
def contentOf (line : Line) : Line := pyStrip line

/-- `indent = '    ' * indent_level` from `parse_code`. -/
def indentStr (k : Nat) : Line := List.replicate (4 * k) ' '

/-- One translation rule: a predicate on the stripped content and a
generator producing the Python lines appended for the source line (or the
Python exception raised).  The source's if/elif chain is this ordered
table, first match wins. -/
structure TransRule where
  pred : Line → Bool
  gen : Line → Line → Except PyErr (List Line)

/-- The ordered rule table of `parse_code`, one entry per `elif` branch of
`src/aaaa.py`, in source order. -/
def ruleTable : List TransRule :=
  [⟨fun s => (str "dire(").isPrefixOf s,
    fun indent s => .ok [indent ++ pyReplace s (str "dire") (str "print")]⟩,
   ⟨fun s => (str "penser(").isPrefixOf s,
    fun indent s => .ok [indent ++ str "print(\"💭 " ++ (s.drop 7).dropLast ++ str "\")"]⟩,
   ⟨fun s => (str "répéter").isPrefixOf s,
    fun indent s =>
      if (pySplitWs s).contains (str "pour") then
        match pyGet (pySplitWs s) 2, pyGetLast (pySplitWs s) with
        | .ok var, .ok lst =>
          .ok [indent ++ str "for " ++ var ++ str " in " ++ pyReplace lst (str ":") [] ++ str ":"]
        | .error e, _ => .error e
        | _, .error e => .error e
      else
        match pyGet (pySplitWs s) 1 with
        | .ok p1 =>
          if pyIsDigit p1 then .ok [indent ++ str "for _ in range(" ++ p1 ++ str "):"]
          else .ok []
        | .error e => .error e⟩,
   ⟨fun s => (str "si").isPrefixOf s,
    fun indent s => .ok [indent ++ str "if " ++ stripColons (s.drop 3) ++ str ":"]⟩,
   ⟨fun s => (str "sinon si").isPrefixOf s,
    fun indent s => .ok [indent ++ str "elif " ++ stripColons (s.drop 8) ++ str ":"]⟩,
   ⟨fun s => (str "sinon").isPrefixOf s,
    fun indent _ => .ok [indent ++ str "else:"]⟩,
   ⟨fun s => (str "attendre(").isPrefixOf s,
    fun indent s => .ok [indent ++ str "time.sleep(" ++ (s.drop 8).dropLast ++ str ")"]⟩,
   ⟨fun s => (str "variable").isPrefixOf s,
    fun indent s => .ok [indent ++ pyStrip (pyReplace s (str "variable") [])]⟩,
   ⟨fun s => (str "changer").isPrefixOf s,
    fun indent s =>
      match pyGet (pySplitWs s) 1, pyGet (pySplitWs s) 3 with
      | .ok var, .ok val => .ok [indent ++ var ++ str " += " ++ val]
      | .error e, _ => .error e
      | _, .error e => .error e⟩,
   ⟨fun s => (str "incrémenter").isPrefixOf s,
    fun indent s =>
      match pyGet (pySplitWs s) 1 with
      | .ok var => .ok [indent ++ var ++ str " += 1"]
      | .error e => .error e⟩,
   ⟨fun s => (str "mettre").isPrefixOf s,
    fun indent s =>
      match pyGet (pySplitWs s) 1, pyGet (pySplitWs s) 3 with
      | .ok var, .ok val => .ok [indent ++ var ++ str " = " ++ val]
      | .error e, _ => .error e
      | _, .error e => .error e⟩,
   ⟨fun s => (str "tant que").isPrefixOf s,
    fun indent s => .ok [indent ++ str "while " ++ stripColons (s.drop 9) ++ str ":"]⟩,
   ⟨fun s => (str "ajouter").isPrefixOf s,
    fun indent s =>
      match unpack2 (pySplitOn (str " à ") s) with
      | .ok (el, lst) =>
        .ok [indent ++ lst ++ str ".append(" ++ pyStrip (pyReplace el (str "ajouter") []) ++ str ")"]
      | .error e => .error e⟩,
   ⟨fun s => (str "enlever").isPrefixOf s,
    fun indent s =>
      match unpack2 (pySplitOn (str " de ") s) with
      | .ok (el, lst) =>
        .ok [indent ++ lst ++ str ".remove(" ++ pyStrip (pyReplace el (str "enlever") []) ++ str ")"]
      | .error e => .error e⟩,
   ⟨fun s => (str "liste").isPrefixOf s,
    fun indent s => .ok [indent ++ pyStrip (pyReplace s (str "liste") [])]⟩,
   ⟨fun s => (str "fonction").isPrefixOf s,
    fun indent s => .ok [indent ++ str "def " ++ pyStrip (pyReplace s (str "fonction") [])]⟩,
   ⟨fun s => (str "retourner").isPrefixOf s,
    fun indent s => .ok [indent ++ str "return " ++ pyStrip (pyReplace s (str "retourner") [])]⟩,
   ⟨fun s => (str "quand_drapeau_clique").isPrefixOf s,
    fun indent _ =>
      .ok [[], indent ++ str "if __name__ == '__main__':", indent ++ str "    main()"]⟩,
   ⟨fun s => (str "pause(").isPrefixOf s,
    fun indent s => .ok [indent ++ str "time.sleep(" ++ (s.drop 6).dropLast ++ str ")"]⟩,
   ⟨fun s => (str "stopper()").isPrefixOf s,
    fun indent _ => .ok [indent ++ str "exit()"]⟩,
   ⟨fun s => (str "stopper_tout()").isPrefixOf s,
    fun indent _ => .ok [indent ++ str "os._exit(0)"]⟩,
   ⟨fun s => (str "déplacer(").isPrefixOf s,
    fun indent s => .ok [indent ++ str "print('Déplacement de " ++ (s.drop 8).dropLast ++ str " unités')"]⟩,
   ⟨fun s => (str "tourner_droite(").isPrefixOf s,
    fun indent s => .ok [indent ++ str "print('Rotation droite de " ++ (s.drop 15).dropLast ++ str " degrés')"]⟩,
   ⟨fun s => (str "aller_a(").isPrefixOf s,
    fun indent s =>
      match unpack2 (pySplitOn (str ",") ((s.drop 8).dropLast)) with
      | .ok (x, y) =>
        .ok [indent ++ str "print('Aller à position (" ++ pyStrip x ++ str ", " ++ pyStrip y ++ str ")')"]
      | .error e => .error e⟩,
   ⟨fun s => (str "rebondir_si_bord()").isPrefixOf s,
    fun indent _ => .ok [indent ++ str "print('Rebond si bord détecté')"]⟩,
   ⟨fun s => (str "montrer()").isPrefixOf s,
    fun indent _ => .ok [indent ++ str "print('Objet visible')"]⟩,
   ⟨fun s => (str "cacher()").isPrefixOf s,
    fun indent _ => .ok [indent ++ str "print('Objet caché')"]⟩,
   ⟨fun s => (str "changer_couleur(").isPrefixOf s,
    fun indent s => .ok [indent ++ str "print('Changement couleur en " ++ (s.drop 16).dropLast ++ str "')"]⟩,
   ⟨fun s => (str "jouer_son(").isPrefixOf s,
    fun indent s => .ok [indent ++ str "print('Jouer son " ++ (s.drop 10).dropLast ++ str "')"]⟩,
   ⟨fun s => (str "arreter_son()").isPrefixOf s,
    fun indent _ => .ok [indent ++ str "print('Arrêt son')"]⟩,
   ⟨fun s => (str "changer_volume(").isPrefixOf s,
    fun indent s => .ok [indent ++ str "print('Volume changé à " ++ (s.drop 15).dropLast ++ str "')"]⟩,
   ⟨fun s => (str "capteur_distance()").isPrefixOf s,
    fun indent _ => .ok [indent ++ str "distance = 0  # Valeur simulée"]⟩,
   ⟨fun s => (str "toucher()").isPrefixOf s,
    fun indent _ => .ok [indent ++ str "toucher = False  # Valeur simulée"]⟩,
   ⟨fun s => (str "couleur_détectée()").isPrefixOf s,
    fun indent _ => .ok [indent ++ str "couleur = 'rouge'  # Valeur simulée"]⟩,
   ⟨fun s => (str "détecter_objet(").isPrefixOf s,
    fun indent s => .ok [indent ++ str "print('Détection objet dans " ++ (s.drop 15).dropLast ++ str "')"]⟩,
   ⟨fun s => (str "reconnaître_parole(").isPrefixOf s,
    fun indent s => .ok [indent ++ str "print('Reconnaissance parole dans " ++ (s.drop 18).dropLast ++ str "')"]⟩,
   ⟨fun s => (str "ia_générer_texte(").isPrefixOf s,
    fun indent s => .ok [indent ++ str "print('Génération texte pour " ++ (s.drop 17).dropLast ++ str "')"]⟩,
   ⟨fun s => (str "pour chaque").isPrefixOf s,
    fun indent s =>
      match unpack2 (pySplitOn (str " dans ") (s.drop 12)) with
      | .ok (var, rangePart) =>
        (match unpack2 (pySplitOn (str "..") (pyReplace rangePart (str ":") [])) with
         | .ok (start, stop) =>
           .ok [indent ++ str "for " ++ var ++ str " in range(" ++ start ++ str ", " ++ stop ++ str "+1):"]
         | .error e => .error e)
      | .error e => .error e⟩,
   ⟨fun s => (str "longueur(").isPrefixOf s,
    fun indent s => .ok [indent ++ str "len(" ++ (s.drop 9).dropLast ++ str ")"]⟩,
   ⟨fun s => (str "arrondi(").isPrefixOf s,
    fun indent s => .ok [indent ++ str "round(" ++ (s.drop 8).dropLast ++ str ")"]⟩,
   ⟨fun s => (str "quand_touche_pressée(").isPrefixOf s,
    fun indent s => .ok [indent ++ str "# Événement touche " ++ (s.drop 20).dropLast.dropLast ++ str " pressée"]⟩,
   ⟨fun s => (str "quand_cliqué").isPrefixOf s,
    fun indent _ => .ok [indent ++ str "# Événement clic souris"]⟩]

/-- First-match-wins interpretation of a rule table; when no rule matches,
the final `else` of the source re-emits the stripped content at the
computed indentation. -/
def applyRules : List TransRule → Line → Line → Except PyErr (List Line)
  | [], indent, stripped => .ok [indent ++ stripped]
  | r :: rs, indent, stripped =>
    if r.pred stripped then r.gen indent stripped else applyRules rs indent stripped

/-- The whole if/elif chain of `parse_code`, acting on one classified
line. -/
def tlAux (indent stripped : Line) : Except PyErr (List Line) :=
  applyRules ruleTable indent stripped

/-- Translation of one raw source line by `parse_code`'s loop body:
classify (strip and compute the indent), then run the rule chain. -/
def translateLine (line : Line) : Except PyErr (List Line) :=
  tlAux (indentStr (indentLevelOf line)) (contentOf line)

/-- Translate every source line in order, concatenating the generated lines;
the first Python exception aborts the whole translation (as an uncaught
exception does in the source). -/
def translateAll : List Line → Except PyErr (List Line)
  | [] => .ok []
  | l :: ls =>
    match translateLine l with
    | .error e => .error e
    | .ok out =>
      match translateAll ls with
      | .error e => .error e
      | .ok rest => .ok (out ++ rest)

/-- The fixed preamble `python_lines` starts with in `parse_code`. -/
def preambleLines : List Line :=
  [str "# -*- coding: utf-8 -*-", str "# Code généré par EduCode",
   str "import time", str "import math", []]

/-- `"\n".join(...)`. -/
def joinNl : List Line → Line
  | [] => []
  | [l] => l
  | l :: l' :: ls => l ++ '\n' :: joinNl (l' :: ls)

/-- `parse_code` on the line level: preamble plus all translated lines. -/
def parseLines (code : Line) : Except PyErr (List Line) :=
  match translateAll (pySplitlines code) with
  | .ok body => .ok (preambleLines ++ body)
  | .error e => .error e

/-- `EduCodeApp.parse_code`: translate an EduCode source string to a Python
program (or raise the Python exception the source would raise). -/
def parse_code (code : String) : Except PyErr String :=
  match parseLines code.data with
  | .ok ls => .ok (String.mk (joinNl ls))
  | .error e => .error e

/-- Whether some translation rule other than the final fallback matches
the stripped content. -/
def matchesAnyRule (stripped : Line) : Bool :=
  ruleTable.any fun r => r.pred stripped

/-- Result of a completed `subprocess.run` (the child exited in time). -/
structure CompletedRun where
  stdout : String
  stderr : String
  returncode : Int
deriving DecidableEq

/-- The abstract outcome of the one `subprocess.run` call of the harness:
normal completion, `TimeoutExpired` (with whatever output had been captured
when the timeout hit), or any other launch exception. -/
inductive RunOutcome where
  | completed (r : CompletedRun)
  | timeoutExpired (partialStdout partialStderr : String)
  | launchFailure (message : String)
deriving DecidableEq

/-- Filesystem effects of one harness call, in order.  The source creates
the temporary program file with `tempfile.NamedTemporaryFile(delete=False)`;
any removal would appear as a `removeFile` effect. -/
inductive FsOp where
  | createTempFile (content : String)
  | removeFile
deriving DecidableEq

/-- The console text `run_code` builds from the outcome (the try/except of
`EduCodeApp.run_code`). -/
def consoleOutput : RunOutcome → String
  | .completed r =>
    r.stdout ++ r.stderr ++ (if r.returncode = 0 then "\n✅ Code exécuté avec succès." else "")
  | .timeoutExpired _ _ => "⏱️ Erreur : le script a pris trop de temps."
  | .launchFailure m => "❌ Erreur à l'exécution : " ++ m

/-- The console text `debug_code` builds from the outcome (same structure,
but no success marker is appended on exit code 0). -/
def debugConsoleOutput : RunOutcome → String
  | .completed r => r.stdout ++ r.stderr
  | .timeoutExpired _ _ => "⏱️ Erreur : le script a pris trop de temps."
  | .launchFailure m => "❌ Erreur à l'exécution : " ++ m

/-- `EduCodeApp.run_code`: translate the editor text, persist the generated
program to a fresh temporary file, run it (outcome supplied abstractly), and
produce the console text together with the list of filesystem effects the
call performed.  A translation exception propagates (it is raised outside
the try block). -/
def run_code (source : String) (outcome : RunOutcome) :
    Except PyErr (String × List FsOp) :=
  match parse_code source with
  | .ok py => .ok (consoleOutput outcome, [FsOp.createTempFile py])
  | .error e => .error e

/-- The trace statement `debug_code` inserts before a generated line: the
1-based counter `i` and the stripped line content truncated to 50
characters. -/
def traceLine (i : Nat) (l : Line) : Line :=
  str "print('DEBUG: Ligne " ++ (Nat.repr i).data ++ str " - " ++
    (pyStrip l).take 50 ++ str "')"

/-- The instrumentation loop of `debug_code` (`for i, line in
enumerate(...)`), with `i` carrying the already-offset 1-based counter. -/
def debugGo (i : Nat) : List Line → List Line
  | [] => []
  | l :: ls => traceLine i l :: l :: debugGo (i + 1) ls

/-- Debug instrumentation over a list of generated lines. -/
def debug_lines (ls : List Line) : List Line := debugGo 1 ls

/-- Debug instrumentation over a generated program string. -/
def debug_program (pyCode : Line) : Line := joinNl (debug_lines (pySplitlines pyCode))

/-- `EduCodeApp.debug_code`: translate, instrument, persist to a fresh
temporary file, run, and produce console text plus filesystem effects. -/
def debug_code (source : String) (outcome : RunOutcome) :
    Except PyErr (String × List FsOp) :=
  match parse_code source with
  | .ok py =>
    .ok (debugConsoleOutput outcome,
         [FsOp.createTempFile (String.mk (debug_program py.data))])
  | .error e => .error e

/-- Substring test (Python `needle in hay`). -/
def containsSub (needle : Line) : Line → Bool
  | [] => needle.isEmpty
  | c :: cs => needle.isPrefixOf (c :: cs) || containsSub needle cs

/-- Number of leading whitespace characters of a line (the quantity the
spec says `indentLevel` is computed from). -/
def leadingWsCount (l : Line) : Nat := (l.takeWhile pyIsSpace).length

/-- Number of trailing whitespace characters of a line. -/
def trailingWsCount (l : Line) : Nat := (l.reverse.takeWhile pyIsSpace).length

/-- The indent level as the spec's words define it (`⌊leading whitespace
count / 4⌋`), stated for comparison with the source's `indentLevelOf`. -/
def specIndentLevel (l : Line) : Nat := leadingWsCount l / 4

/-- The translated program for the empty source: exactly the preamble. -/
def preambleString : String :=
  "# -*- coding: utf-8 -*-\n# Code généré par EduCode\nimport time\nimport math\n"

/-- Shape of a successful rule output for the content `s` at indentation
`i`: a single line carrying the indentation, the three-line program-entry
block, or the empty output of a counted repeat whose count is neither
numeric nor a for-each form. -/
def GenShape (i s : Line) (out : List Line) : Prop :=
  (∃ body, out = [i ++ body]) ∨
  ((str "quand_drapeau_clique").isPrefixOf s = true ∧
    out = [[], i ++ str "if __name__ == '__main__':", i ++ str "    main()"]) ∨
  ((str "répéter").isPrefixOf s = true ∧ out = [])

/-! ### Whitespace-counting lemmas for the line classifier -/

theorem takeWhile_append_of_mem_not {p : Char → Bool} (a b : Line)
    (h : ∃ x ∈ a, p x = false) :
    (a ++ b).takeWhile p = a.takeWhile p := by
  induction a with
  | nil => obtain ⟨x, hx, _⟩ := h; cases hx
  | cons c cs ih =>
    cases hc : p c with
    | false => simp [List.takeWhile_cons, hc]
    | true =>
      simp only [List.cons_append, List.takeWhile_cons, hc, if_true]
      obtain ⟨x, hx, hpx⟩ := h
      rcases List.mem_cons.mp hx with rfl | hx
      · rw [hpx] at hc; cases hc
      · rw [ih ⟨x, hx, hpx⟩]

theorem mem_dropWhile_of_mem_not {p : Char → Bool} {l : Line} {x : Char}
    (hx : x ∈ l) (hpx : p x = false) : x ∈ l.dropWhile p := by
  induction l with
  | nil => cases hx
  | cons c cs ih =>
    cases hc : p c with
    | false => simpa [List.dropWhile_cons, hc] using hx
    | true =>
      simp only [List.dropWhile_cons, hc, if_true]
      rcases List.mem_cons.mp hx with rfl | hmem
      · rw [hpx] at hc; cases hc
      · exact ih hmem

theorem length_dropWhile_eq {p : Char → Bool} (l : Line) :
    (l.dropWhile p).length = l.length - (l.takeWhile p).length := by
  have h := congrArg List.length (l.takeWhile_append_dropWhile (p := p))
  rw [List.length_append] at h
  omega

theorem length_takeWhile_le {p : Char → Bool} (l : Line) :
    (l.takeWhile p).length ≤ l.length := by
  have h := congrArg List.length (l.takeWhile_append_dropWhile (p := p))
  rw [List.length_append] at h
  omega

/-- With at least one non-whitespace character on the line, stripping
removes exactly the leading plus the trailing whitespace characters. -/
theorem pyStrip_length (l : Line) (h : ∃ x ∈ l, pyIsSpace x = false) :
    (pyStrip l).length = l.length - (leadingWsCount l + trailingWsCount l) ∧
    leadingWsCount l + trailingWsCount l ≤ l.length := by
  obtain ⟨x, hxl, hxws⟩ := h
  have hd : pyLStrip l = l.dropWhile pyIsSpace := rfl
  have hdlen : (pyLStrip l).length = l.length - leadingWsCount l :=
    length_dropWhile_eq l
  have hlead_le : leadingWsCount l ≤ l.length := length_takeWhile_le l
  have hxd : x ∈ pyLStrip l := mem_dropWhile_of_mem_not hxl hxws
  have hxdr : x ∈ (pyLStrip l).reverse := List.mem_reverse.mpr hxd
  have htrail : l.reverse.takeWhile pyIsSpace =
      (pyLStrip l).reverse.takeWhile pyIsSpace := by
    conv_lhs =>
      rw [← l.takeWhile_append_dropWhile (p := pyIsSpace), List.reverse_append]
    exact takeWhile_append_of_mem_not _ _ ⟨x, hxdr, hxws⟩
  have htrail_len : trailingWsCount l =
      ((pyLStrip l).reverse.takeWhile pyIsSpace).length := by
    unfold trailingWsCount; rw [htrail]
  have hslen : (pyStrip l).length = (pyLStrip l).length - trailingWsCount l := by
    unfold pyStrip pyRStrip
    rw [List.length_reverse, length_dropWhile_eq, List.length_reverse,
      htrail_len]
  have htrail_le : trailingWsCount l ≤ (pyLStrip l).length := by
    rw [htrail_len]
    have := length_takeWhile_le (p := pyIsSpace) ((pyLStrip l).reverse)
    simpa using this
  omega

/-- `dropWhile` over a run of spaces. -/
theorem dropWhile_replicate_space (n : Nat) (l : Line) :
    (List.replicate n ' ' ++ l).dropWhile pyIsSpace = l.dropWhile pyIsSpace := by
  induction n with
  | zero => simp
  | succ n ih =>
    rw [List.replicate_succ, List.cons_append, List.dropWhile_cons]
    simp only [pyIsSpace]
    simp [ih]

/-- A string equal to its own strip is already left-stripped. -/
theorem pyLStrip_eq_self (c : Line) (h : pyStrip c = c) : pyLStrip c = c := by
  have hsuffix : pyLStrip c <:+ c :=
    ⟨c.takeWhile pyIsSpace, c.takeWhile_append_dropWhile (p := pyIsSpace)⟩
  apply hsuffix.eq_of_length
  have h1 : (pyLStrip c).length ≤ c.length := hsuffix.length_le
  have h2 : (pyStrip c).length ≤ (pyLStrip c).length := by
    unfold pyStrip pyRStrip
    have hsfx : (pyLStrip c).reverse.dropWhile pyIsSpace <:+ (pyLStrip c).reverse :=
      ⟨(pyLStrip c).reverse.takeWhile pyIsSpace,
        (pyLStrip c).reverse.takeWhile_append_dropWhile (p := pyIsSpace)⟩
    have := hsfx.length_le
    simpa using this
  have h3 : (pyStrip c).length = c.length := by rw [h]
  omega

/-- A string equal to its own strip is also right-stripped. -/
theorem pyRStrip_eq_self (c : Line) (h : pyStrip c = c) : pyRStrip c = c := by
  have hl := pyLStrip_eq_self c h
  calc pyRStrip c = pyRStrip (pyLStrip c) := by rw [hl]
    _ = pyStrip c := rfl
    _ = c := h

/-- Stripping an indented line whose content is already stripped recovers
exactly the content. -/
theorem pyStrip_indent (k : Nat) (c : Line) (h : pyStrip c = c) :
    pyStrip (indentStr k ++ c) = c := by
  have hls : pyLStrip (indentStr k ++ c) = pyLStrip c := by
    unfold pyLStrip indentStr
    exact dropWhile_replicate_space _ _
  calc pyStrip (indentStr k ++ c)
      = pyRStrip (pyLStrip (indentStr k ++ c)) := rfl
    _ = pyRStrip (pyLStrip c) := by rw [hls]
    _ = pyRStrip c := by rw [pyLStrip_eq_self c h]
    _ = c := pyRStrip_eq_self c h

/-- The classifier assigns an indented, pre-stripped line the indent level
written in its leading spaces. -/
theorem indentLevelOf_indent (k : Nat) (c : Line) (h : pyStrip c = c) :
    indentLevelOf (indentStr k ++ c) = k := by
  unfold indentLevelOf
  rw [pyStrip_indent k c h]
  simp only [List.length_append, indentStr, List.length_replicate]
  omega

/-! ### Rule-chain lemmas -/

/-- If no rule's predicate holds, the table interpreter reaches the final
fallback. -/
theorem applyRules_fallback (R : List TransRule) (i s : Line)
    (h : ∀ r ∈ R, r.pred s = false) : applyRules R i s = .ok [i ++ s] := by
  induction R with
  | nil => rfl
  | cons r rs ih =>
    have hr := h r (List.mem_cons_self r rs)
    simp only [applyRules, hr, Bool.false_eq_true, if_false]
    exact ih fun r' hr' => h r' (List.mem_cons_of_mem r hr')

/-- When no rule predicate matches, the chain reaches the final fallback
and re-emits the stripped content at the computed indentation. -/
theorem tlAux_fallback (indent stripped : Line)
    (h : matchesAnyRule stripped = false) :
    tlAux indent stripped = .ok [indent ++ stripped] := by
  apply applyRules_fallback
  intro r hr
  simp only [matchesAnyRule, List.any_eq_false] at h
  have := h r hr
  simpa using this

/-- If every rule of a table generates only `GenShape` outputs (whenever
its predicate holds), so does the whole interpreter run. -/
theorem applyRules_shape (R : List TransRule)
    (hR : ∀ r ∈ R, ∀ i s out, r.pred s = true → r.gen i s = .ok out → GenShape i s out)
    (i s : Line) (out : List Line) (h : applyRules R i s = .ok out) :
    GenShape i s out := by
  induction R with
  | nil =>
    injection h with h
    exact Or.inl ⟨s, h.symm⟩
  | cons r rs ih =>
    by_cases hp : r.pred s = true
    · simp only [applyRules, hp, if_true] at h
      exact hR r (List.mem_cons_self r rs) i s out hp h
    · simp only [applyRules, hp, if_false] at h
      exact ih (fun r' hr' => hR r' (List.mem_cons_of_mem r hr')) h

/-- Every rule of the source's table generates outputs of the allowed
shapes. -/
theorem ruleTable_ok :
    ∀ r ∈ ruleTable, ∀ i s out, r.pred s = true → r.gen i s = .ok out →
      GenShape i s out := by
  intro r hr
  simp only [ruleTable, List.mem_cons, List.not_mem_nil, or_false] at hr
  rcases hr with rfl|rfl|rfl|rfl|rfl|rfl|rfl|rfl|rfl|rfl|rfl|rfl|rfl|rfl|
    rfl|rfl|rfl|rfl|rfl|rfl|rfl|rfl|rfl|rfl|rfl|rfl|rfl|rfl|rfl|rfl|rfl|
    rfl|rfl|rfl|rfl|rfl|rfl|rfl|rfl|rfl|rfl|rfl <;>
  · intro i s out hp h
    dsimp only at h hp
    repeat' split at h
    all_goals first
      | exact Except.noConfusion h
      | (injection h with h; subst h; exact Or.inr (Or.inl ⟨hp, rfl⟩))
      | (injection h with h; subst h; exact Or.inr (Or.inr ⟨hp, rfl⟩))
      | (injection h with h; subst h;
         exact Or.inl ⟨_, by first | rfl | (simp only [List.append_assoc]; rfl)⟩)

/-- Shape of any successful `tlAux` output. -/
theorem tlAux_shape (indent stripped : Line) (out : List Line)
    (h : tlAux indent stripped = .ok out) : GenShape indent stripped out :=
  applyRules_shape ruleTable ruleTable_ok indent stripped out h

/-! ### Splitlines and translation-abort lemmas -/

theorem splitNl_ne_nil (l : Line) : splitNl l ≠ [] := by
  cases l with
  | nil => simp [splitNl]
  | cons c cs =>
    unfold splitNl
    cases hr : splitNl cs with
    | nil => simp
    | cons r rs =>
      dsimp only
      split <;> simp

theorem splitNl_append (a r : Line) (ha : ∀ c ∈ a, c ≠ '\n') :
    splitNl (a ++ '\n' :: r) = a :: splitNl r := by
  induction a with
  | nil =>
    show splitNl ('\n' :: r) = [] :: splitNl r
    cases hr : splitNl r with
    | nil => exact absurd hr (splitNl_ne_nil r)
    | cons r0 rs =>
      simp only [splitNl]
      rw [hr]
      simp
  | cons c cs ih =>
    have hc : c ≠ '\n' := ha c (List.mem_cons_self c cs)
    have ih' := ih fun x hx => ha x (List.mem_cons_of_mem c hx)
    show splitNl (c :: (cs ++ '\n' :: r)) = (c :: cs) :: splitNl r
    simp only [splitNl]
    rw [ih']
    simp [hc]

theorem pySplitlines_cons (a r : Line) (ha : ∀ c ∈ a, c ≠ '\n') :
    pySplitlines (a ++ '\n' :: r) = a :: pySplitlines r := by
  unfold pySplitlines
  rw [splitNl_append a r ha]
  cases hr : splitNl r with
  | nil => exact absurd hr (splitNl_ne_nil r)
  | cons r0 rs =>
    rw [List.getLast?_cons_cons, List.dropLast_cons₂]
    by_cases hc : (r0 :: rs).getLast? = some []
    · simp [hc]
    · simp [hc]

/-- A translation exception on the first line aborts the whole run of
`parse_code`, whatever follows that line. -/
theorem parse_code_error_head (s : String) (a rest : Line) (e : PyErr)
    (hs : s.data = a ++ '\n' :: rest) (ha : ∀ c ∈ a, c ≠ '\n')
    (he : translateLine a = .error e) :
    parse_code s = .error e := by
  unfold parse_code parseLines
  rw [hs, pySplitlines_cons a rest ha]
  rw [show translateAll (a :: pySplitlines rest) = .error e from by
    unfold translateAll; rw [he]]

/-! ### Debug-instrumentation lemmas -/

theorem debugGo_length (n : Nat) (ls : List Line) :
    (debugGo n ls).length = 2 * ls.length := by
  induction ls generalizing n with
  | nil => rfl
  | cons l t ih =>
    show (debugGo n (l :: t)).length = 2 * (l :: t).length
    unfold debugGo
    simp only [List.length_cons, ih (n + 1)]
    omega

theorem debugGo_get (ls : List Line) (n i : Nat) :
    (debugGo n ls).get? (2 * i) = (ls.get? i).map (traceLine (n + i)) ∧
    (debugGo n ls).get? (2 * i + 1) = ls.get? i := by
  induction ls generalizing n i with
  | nil => simp [debugGo]
  | cons l t ih =>
    cases i with
    | zero => simp [debugGo]
    | succ j =>
      have h1 : 2 * (j + 1) = 2 * j + 1 + 1 := by omega
      have h2 : 2 * (j + 1) + 1 = 2 * j + 1 + 1 + 1 := by omega
      unfold debugGo
      rw [h2, h1]
      simp only [List.get?_cons_succ]
      have h3 := ih (n + 1) j
      rw [show n + 1 + j = n + (j + 1) from by omega] at h3
      exact h3

/-! ### Join and preamble lemmas -/

theorem joinNl_is_prefix (a b : List Line) (hne : a ≠ []) :
    joinNl a <+: joinNl (a ++ b) := by
  induction a with
  | nil => exact absurd rfl hne
  | cons x xs ih =>
    cases xs with
    | nil =>
      cases b with
      | nil => exact List.prefix_refl _
      | cons b0 bs =>
        show joinNl [x] <+: joinNl (x :: b0 :: bs)
        exact ⟨'\n' :: joinNl (b0 :: bs), rfl⟩
    | cons y ys =>
      obtain ⟨t, ht⟩ := ih (by simp)
      refine ⟨t, ?_⟩
      show (x ++ '\n' :: joinNl (y :: ys)) ++ t = joinNl ((x :: y :: ys) ++ b)
      rw [List.append_assoc]
      show x ++ ('\n' :: joinNl (y :: ys) ++ t) = joinNl (x :: (y :: ys ++ b))
      have : joinNl (x :: (y :: ys ++ b)) = x ++ '\n' :: joinNl (y :: ys ++ b) := by
        cases ys <;> rfl
      rw [this, ← ht]
      rfl

/-! ### Claim theorems -/

/-- C1: the claim says the else-if rule is tried before the bare else rule
and the bare if rule, so "sinon si COND:" yields "elif COND:" and "sinon:"
yields "else:".  In the source the generic if rule (prefix "si") is tried
first, and "sinon" starts with "si", so both else forms are captured by the
if rule and mangled if headers are emitted; the dedicated elif/else
branches are unreachable.  This theorem evaluates the translator at the
failing inputs. -/
theorem C1_if_shadows_else :
    translateLine (str "sinon si x > 0:") = .ok [str "if on si x > 0:"] ∧
    translateLine (str "sinon:") = .ok [str "if on:"] ∧
    str "if on si x > 0:" ≠ str "elif x > 0:" ∧
    str "if on:" ≠ str "else:" := by
  refine ⟨by decide, by decide, by decide, by decide⟩

/-- C2 counterexample: on a normal completion with exit code 0 the harness
performs no file removal, refuting "the temporary file is removed by the
time the call returns, on every exit path". -/
theorem C2_counterexample :
    run_code "" (.completed ⟨"", "", 0⟩) =
      .ok ("\n✅ Code exécuté avec succès.", [FsOp.createTempFile preambleString]) ∧
    FsOp.removeFile ∉ [FsOp.createTempFile preambleString] := by
  refine ⟨by decide, by decide⟩

/-- C2 amended: on every exit path of `run_code` and `debug_code` the
temporary file is created and never removed — the harness performs no
`removeFile` effect at all. -/
theorem C2_amended (src : String) (outcome : RunOutcome)
    (res : String × List FsOp)
    (h : run_code src outcome = .ok res ∨ debug_code src outcome = .ok res) :
    FsOp.removeFile ∉ res.2 := by
  rcases h with h | h
  · unfold run_code at h
    cases hp : parse_code src with
    | error e => rw [hp] at h; exact Except.noConfusion h
    | ok py =>
      rw [hp] at h
      injection h with h
      subst h
      simp
  · unfold debug_code at h
    cases hp : parse_code src with
    | error e => rw [hp] at h; exact Except.noConfusion h
    | ok py =>
      rw [hp] at h
      injection h with h
      subst h
      simp

/-- C2 amended, witnessed at a concrete run. -/
theorem C2_amended_witness :
    FsOp.removeFile ∉ [FsOp.createTempFile preambleString] :=
  C2_amended "" (.completed ⟨"", "", 0⟩)
    ("\n✅ Code exécuté avec succès.", [FsOp.createTempFile preambleString])
    (Or.inl (by decide))

/-- C3 counterexample: a mutate-by line with six whitespace tokens (a
count other than four) is translated silently into broken code instead of
surfacing an error, and a three-token mutate-by line (or an append line
without the " à " separator) raises a bare exception rather than a
translation-time error carrying the line number and raw text. -/
theorem C3_counterexample :
    translateLine (str "changer a b c d e") = .ok [str "a += c"] ∧
    parse_code "changer score de" = .error .indexError ∧
    parse_code "ajouter 1 2" = .error .valueError := by
  refine ⟨by decide, by decide, by decide⟩

/-- C3 amended: a malformed mutate-by/set-to line (fewer than four tokens)
raises an uncaught `IndexError` and a malformed append/remove line (missing
its literal separator) raises an uncaught `ValueError`; the exception
aborts the translation at the first malformed line, whatever follows, so
errors are not collected and carry no line number or raw text. -/
theorem C3_amended (rest : String) :
    parse_code ("changer score de\n" ++ rest) = .error .indexError ∧
    parse_code ("mettre x\n" ++ rest) = .error .indexError ∧
    parse_code ("ajouter 1 2\n" ++ rest) = .error .valueError ∧
    parse_code ("enlever 1 2\n" ++ rest) = .error .valueError := by
  refine ⟨?_, ?_, ?_, ?_⟩
  · exact parse_code_error_head _ (str "changer score de") rest.data _
      (by simp only [String.data_append]; rfl) (by decide) (by decide)
  · exact parse_code_error_head _ (str "mettre x") rest.data _
      (by simp only [String.data_append]; rfl) (by decide) (by decide)
  · exact parse_code_error_head _ (str "ajouter 1 2") rest.data _
      (by simp only [String.data_append]; rfl) (by decide) (by decide)
  · exact parse_code_error_head _ (str "enlever 1 2") rest.data _
      (by simp only [String.data_append]; rfl) (by decide) (by decide)

/-- C4 counterexample: on a timeout the harness reports only the fixed
timeout message; the partial output captured before expiry ("hello") is
not contained in the reported text, refuting "partial output is
preserved". -/
theorem C4_counterexample :
    run_code "" (.timeoutExpired "hello" "") =
      .ok ("⏱️ Erreur : le script a pris trop de temps.",
           [FsOp.createTempFile preambleString]) ∧
    containsSub (str "hello")
      (str "⏱️ Erreur : le script a pris trop de temps.") = false := by
  refine ⟨by decide, by decide⟩

/-- C4 amended: on timeout expiry the harness reports a fixed timeout
message, identical whatever output had been captured before expiry —
partial output is discarded and no exit code is reported. -/
theorem C4_amended (partialOut partialErr otherOut otherErr : String) :
    consoleOutput (.timeoutExpired partialOut partialErr) =
      "⏱️ Erreur : le script a pris trop de temps." ∧
    consoleOutput (.timeoutExpired partialOut partialErr) =
      consoleOutput (.timeoutExpired otherOut otherErr) :=
  ⟨rfl, rfl⟩

/-- C5 counterexample: the counted-repeat rule matches "répéter x fois:"
(a recognized rule) yet emits zero output lines; and the append rule can
emit a line whose indentation level differs from its source line's level
(leading whitespace smuggled through the " à " split). -/
theorem C5_counterexample :
    translateLine (str "répéter x fois:") = .ok [] ∧
    matchesAnyRule (str "répéter x fois:") = true ∧
    translateLine (str "ajouter x à     ml") = .ok [str "    ml.append(x)"] ∧
    indentLevelOf (str "ajouter x à     ml") = 0 ∧
    indentLevelOf (str "    ml.append(x)") = 1 := by
  refine ⟨by decide, by decide, by decide, by decide, by decide⟩

/-- C5 amended: every successful translation of a source line emits
exactly one generated line, except the program-entry marker (three lines:
a blank line plus the two-line guard) and a counted repeat whose count
token is neither numeric nor a for-each form (zero lines); and every
generated line is either blank or begins with the source line's
four-spaces-per-level indentation prefix. -/
theorem C5_amended (line : Line) (out : List Line)
    (h : translateLine line = .ok out) :
    (out.length = 1 ∨ out.length = 3 ∨ out.length = 0) ∧
    (out.length = 0 → (str "répéter").isPrefixOf (contentOf line) = true) ∧
    (out.length = 3 →
      (str "quand_drapeau_clique").isPrefixOf (contentOf line) = true) ∧
    (∀ l ∈ out, l = [] ∨ indentStr (indentLevelOf line) <+: l) := by
  have hs := tlAux_shape _ _ _ h
  rcases hs with ⟨body, rfl⟩ | ⟨hpre, rfl⟩ | ⟨hpre, rfl⟩
  · refine ⟨Or.inl rfl, by simp, by simp, ?_⟩
    intro l hl
    rw [List.mem_singleton] at hl
    subst hl
    exact Or.inr ⟨body, rfl⟩
  · refine ⟨Or.inr (Or.inl rfl), by simp, fun _ => hpre, ?_⟩
    intro l hl
    simp only [List.mem_cons, List.not_mem_nil, or_false] at hl
    rcases hl with rfl | rfl | rfl
    · exact Or.inl rfl
    · exact Or.inr ⟨_, rfl⟩
    · exact Or.inr ⟨_, rfl⟩
  · exact ⟨Or.inr (Or.inr rfl), fun _ => hpre, by simp, by simp⟩

/-- C5 amended, witnessed at a concrete output line. -/
theorem C5_amended_witness :
    ([str "print(1)"].length = 1 ∨ [str "print(1)"].length = 3 ∨
      [str "print(1)"].length = 0) ∧
    ([str "print(1)"].length = 0 →
      (str "répéter").isPrefixOf (contentOf (str "dire(1)")) = true) ∧
    ([str "print(1)"].length = 3 →
      (str "quand_drapeau_clique").isPrefixOf (contentOf (str "dire(1)")) = true) ∧
    (∀ l ∈ [str "print(1)"],
      l = [] ∨ indentStr (indentLevelOf (str "dire(1)")) <+: l) :=
  C5_amended (str "dire(1)") [str "print(1)"] (by decide)

/-- C6 counterexample: the classifier's indent level counts trailing
whitespace as well — a line with two leading and two trailing spaces gets
level 1 while the spec's leading-only formula gives 0. -/
theorem C6_counterexample :
    indentLevelOf (str "  x  ") = 1 ∧
    specIndentLevel (str "  x  ") = 0 ∧
    leadingWsCount (str "  x  ") = 2 ∧
    trailingWsCount (str "  x  ") = 2 := by
  refine ⟨by decide, by decide, by decide, by decide⟩

/-- C6 amended: for every raw line containing at least one non-whitespace
character, the classifier computes
`indentLevel = ⌊(leading + trailing whitespace count) / 4⌋` — not leading
whitespace only — and `content` is the line with leading and trailing
whitespace stripped. -/
theorem C6_amended (l : Line) (h : ∃ x ∈ l, pyIsSpace x = false) :
    indentLevelOf l = (leadingWsCount l + trailingWsCount l) / 4 ∧
    contentOf l = pyRStrip (pyLStrip l) := by
  obtain ⟨hlen, hle⟩ := pyStrip_length l h
  refine ⟨?_, rfl⟩
  unfold indentLevelOf
  rw [show l.length - (pyStrip l).length =
    leadingWsCount l + trailingWsCount l from by omega]

/-- C6 amended, witnessed at a concrete line. -/
theorem C6_amended_witness :
    indentLevelOf (str " x ") =
      (leadingWsCount (str " x ") + trailingWsCount (str " x ")) / 4 ∧
    contentOf (str " x ") = pyRStrip (pyLStrip (str " x ")) :=
  C6_amended (str " x ") (by decide)

/-- C7: a line whose stripped content matches no rule is re-emitted by the
fallback identity rule verbatim at the same indentation level; in
particular the generated line equals the input line, so re-translating it
(idempotence) yields it unchanged. -/
theorem C7_fallback_identity (k : Nat) (content : Line)
    (hstrip : pyStrip content = content)
    (hmatch : matchesAnyRule content = false) :
    translateLine (indentStr k ++ content) = .ok [indentStr k ++ content] ∧
    indentLevelOf (indentStr k ++ content) = k ∧
    contentOf (indentStr k ++ content) = content := by
  have hc : contentOf (indentStr k ++ content) = content :=
    pyStrip_indent k content hstrip
  have hk : indentLevelOf (indentStr k ++ content) = k :=
    indentLevelOf_indent k content hstrip
  refine ⟨?_, hk, hc⟩
  unfold translateLine
  rw [hc, hk]
  exact tlAux_fallback (indentStr k) content hmatch

/-- C7, witnessed at a raw Python line at indent level 1. -/
theorem C7_fallback_identity_witness :
    translateLine (indentStr 1 ++ str "x = y + 1") =
      .ok [indentStr 1 ++ str "x = y + 1"] ∧
    indentLevelOf (indentStr 1 ++ str "x = y + 1") = 1 ∧
    contentOf (indentStr 1 ++ str "x = y + 1") = str "x = y + 1" :=
  C7_fallback_identity 1 (str "x = y + 1") (by decide) (by decide)

/-- C8: the claim says "changer_couleur(ARG)" and "changer_volume(ARG)"
lines are translated to their descriptive print calls, but both contents
start with "changer", so the mutate-by rule (tried earlier) captures them
and raises `IndexError` on the single-token split; the dedicated set-color
and set-volume branches are unreachable.  This theorem evaluates the
translator at the failing inputs. -/
theorem C8_color_volume_crash :
    translateLine (str "changer_couleur(rouge)") = .error .indexError ∧
    translateLine (str "changer_volume(50)") = .error .indexError := by
  refine ⟨by decide, by decide⟩

/-- C9: debug instrumentation doubles the line count, placing before each
original line (order-preserved, unchanged) a trace print carrying the
1-based counter and the stripped line content truncated to at most 50
characters; a two-line program yields trace(1), line1, trace(2), line2. -/
theorem C9_debug_instrumentation :
    (∀ l1 l2 : Line,
      debug_lines [l1, l2] = [traceLine 1 l1, l1, traceLine 2 l2, l2]) ∧
    (∀ ls : List Line, (debug_lines ls).length = 2 * ls.length) ∧
    (∀ (ls : List Line) (i : Nat),
      (debug_lines ls).get? (2 * i) = (ls.get? i).map (traceLine (i + 1)) ∧
      (debug_lines ls).get? (2 * i + 1) = ls.get? i) ∧
    (∀ (i : Nat) (l : Line),
      traceLine i l = str "print('DEBUG: Ligne " ++ (Nat.repr i).data ++
        str " - " ++ (pyStrip l).take 50 ++ str "')" ∧
      ((pyStrip l).take 50).length ≤ 50) := by
  refine ⟨fun l1 l2 => rfl, fun ls => debugGo_length 1 ls, ?_, ?_⟩
  · intro ls i
    have h := debugGo_get ls 1 i
    rw [show 1 + i = i + 1 from by omega] at h
    exact h
  · intro i l
    refine ⟨rfl, ?_⟩
    rw [List.length_take]
    omega

/-- C10: every translated program starts with the fixed five-line preamble
(encoding line, generated-by comment, the two imports, and one empty
line); translating the empty source yields exactly the preamble. -/
theorem C10_preamble :
    parse_code "" = .ok preambleString ∧
    preambleString =
      "# -*- coding: utf-8 -*-\n# Code généré par EduCode\nimport time\nimport math\n" ∧
    ∀ (src out : String), parse_code src = .ok out →
      joinNl preambleLines <+: out.data := by
  refine ⟨by decide, rfl, ?_⟩
  intro src out h
  unfold parse_code at h
  cases hp : parseLines src.data with
  | error e => rw [hp] at h; exact Except.noConfusion h
  | ok ls =>
    rw [hp] at h
    injection h with h
    subst h
    unfold parseLines at hp
    cases ht : translateAll (pySplitlines src.data) with
    | error e => rw [ht] at hp; exact Except.noConfusion hp
    | ok body =>
      rw [ht] at hp
      injection hp with hp
      rw [← hp]
      exact joinNl_is_prefix preambleLines body (by simp [preambleLines])

/-- C10, witnessed at the empty source. -/
theorem C10_preamble_witness :
    joinNl preambleLines <+: preambleString.data :=
  C10_preamble.2.2 "" preambleString (by decide)
